import Mathlib

/-!
Shallow embedding of the onmyaiclub music-sync repository: the server clock
authority, session registry, per-viewer konami debounce gate
(src/server/index.js), the client sync estimator (useMultiplayer hook),
the drift-correction callback (Visualizer.tsx), and the audio playAt clamp
(useAudioAnalyzer hook).  Times are rationals (milliseconds for wall-clock
values, seconds for song positions), numbers in general are rationals,
and JavaScript Map objects are association lists with unique keys.
-/

/-- Truncation toward zero, as JavaScript coerces for the remainder operator:
for a nonnegative rational this is the floor, for a negative one the ceiling. -/
def jsTrunc (q : ℚ) : ℤ := if 0 ≤ q then ⌊q⌋ else -⌊-q⌋

/-- The JavaScript remainder operator on rationals: x % d = x - d * trunc (x / d). -/
def jsMod (x d : ℚ) : ℚ := x - d * jsTrunc (x / d)

/-- Lookup in a JavaScript Map modelled as an association list (Map.get). -/
def mapGet {α : Type} : List (String × α) → String → Option α
  | [], _ => none
  | (k', v) :: rest, k => if k' = k then some v else mapGet rest k

/-- Insertion or in-place replacement in a JavaScript Map (Map.set): an existing
key keeps its position, a new key is appended at the end, as Map iteration
order is insertion order. -/
def mapSet {α : Type} : List (String × α) → String → α → List (String × α)
  | [], k, v => [(k, v)]
  | (k', v') :: rest, k, v =>
      if k' = k then (k, v) :: rest else (k', v') :: mapSet rest k v

/-- Deletion from a JavaScript Map (Map.delete).  Map keys are unique, so
filtering out every pair with the key is extensionally the same operation. -/
def mapDelete {α : Type} (m : List (String × α)) (k : String) : List (String × α) :=
  m.filter (fun p => !(p.1 == k))

/-- Insert a value into an already ascending list, keeping it ascending. -/
def insertSorted (x : ℚ) : List ℚ → List ℚ
  | [] => [x]
  | y :: ys => if x ≤ y then x :: y :: ys else y :: insertSorted x ys

/-- Ascending numeric sort, the effect of the JavaScript call
sort applied with the comparator (a, b) => a - b.  Equal rationals are
indistinguishable, so stability is unobservable and insertion sort is a
faithful model of whatever algorithm the engine uses. -/
def sortAsc (l : List ℚ) : List ℚ := l.foldr insertSorted []

/-- The value the client calls the median: the entry at index
floor (length / 2) of the ascending sort (the upper median for even lengths);
0 for the empty list, matching the initial latency of 0. -/
def medianOf (l : List ℚ) : ℚ := (sortAsc l).getD (l.length / 2) 0

/-- The suffix of the last at most n elements of a list. -/
def takeLast {α : Type} (n : ℕ) (l : List α) : List α := l.drop (l.length - n)

/-- SONG_DURATION from src/server/index.js: the fixed nominal loop length in
seconds. -/
def SONG_DURATION : ℚ := 21.0

/-- getElapsedTime from src/server/index.js: seconds since the server started,
computed from the millisecond wall clock. -/
def getElapsedTime (now serverStartTime : ℚ) : ℚ := (now - serverStartTime) / 1000

/-- getCurrentSongTime from src/server/index.js: elapsed time modulo the loop
duration, via the JavaScript remainder operator. -/
def getCurrentSongTime (now serverStartTime : ℚ) : ℚ :=
  jsMod (getElapsedTime now serverStartTime) SONG_DURATION

/-- getLoopCount from src/server/index.js: Math.floor of elapsed over duration. -/
def getLoopCount (now serverStartTime : ℚ) : ℤ :=
  ⌊getElapsedTime now serverStartTime / SONG_DURATION⌋

/-- One entry of the users Map in src/server/index.js: id, display color and
normalized pointer position. -/
structure Session where
  id : String
  color : String
  x : ℚ
  y : ℚ
deriving DecidableEq

/-- The mutable server state of src/server/index.js: the users Map, the
process-wide activation counter, and the per-user debounce Map. -/
structure ServerState where
  users : List (String × Session)
  konamiActivations : ℕ
  lastKonamiActivation : List (String × ℕ)
deriving DecidableEq

/-- The server state right after startup: empty registry, zero counter, empty
debounce map. -/
def initialState : ServerState := ⟨[], 0, []⟩

/-- The connection handler of src/server/index.js: creates the user entry with
pointer at the normalized center (0.5, 0.5) and stores it with Map.set, which
silently overwrites any entry already under that id.  Returns the new state
and the created session. -/
def handleConnection (s : ServerState) (userId userColor : String) :
    ServerState × Session :=
  let sess : Session := ⟨userId, userColor, 0.5, 0.5⟩
  ({ s with users := mapSet s.users userId sess }, sess)

/-- The cursorUpdate broadcast of src/server/index.js: payload plus the set of
recipients, which socket.broadcast.emit makes every connected socket except
the sender. -/
structure CursorBroadcast where
  userId : String
  x : ℚ
  y : ℚ
  recipients : List String
deriving DecidableEq

/-- The cursorMove handler of src/server/index.js: looks the sender up in the
users Map; if absent, nothing happens; if present, mutates that entry in
place and broadcasts the update to everyone else. -/
def cursorMove (s : ServerState) (userId : String) (x y : ℚ) :
    ServerState × Option CursorBroadcast :=
  match mapGet s.users userId with
  | none => (s, none)
  | some user =>
      ({ s with users := mapSet s.users userId { user with x := x, y := y } },
       some ⟨userId, x, y, (s.users.map Prod.fst).filter (fun j => !(j == userId))⟩)

/-- The konamiActivated handler of src/server/index.js: reads the last
activation timestamp of this user with default 0 for a missing entry, drops
the event when now - lastActivation < 1000, and otherwise records now,
increments the counter and replies with the new total to the requester only. -/
def konamiActivated (s : ServerState) (userId : String) (now : ℕ) :
    ServerState × Option ℕ :=
  let lastActivation := (mapGet s.lastKonamiActivation userId).getD 0
  if now - lastActivation < 1000 then (s, none)
  else
    ({ s with
        lastKonamiActivation := mapSet s.lastKonamiActivation userId now,
        konamiActivations := s.konamiActivations + 1 },
     some (s.konamiActivations + 1))

/-- The disconnect handler of src/server/index.js: deletes the user from the
users Map.  The debounce Map is left untouched by the source. -/
def handleDisconnect (s : ServerState) (userId : String) : ServerState :=
  { s with users := mapDelete s.users userId }

/-- One externally triggered server event, for reachability of server states. -/
inductive Event where
  | connect (userId userColor : String)
  | cursor (userId : String) (x y : ℚ)
  | konami (userId : String) (now : ℕ)
  | disconnect (userId : String)

/-- State transition of the server on one event, projecting away the emitted
messages. -/
def step (s : ServerState) : Event → ServerState
  | .connect userId userColor => (handleConnection s userId userColor).1
  | .cursor userId x y => (cursorMove s userId x y).1
  | .konami userId now => (konamiActivated s userId now).1
  | .disconnect userId => handleDisconnect s userId

/-- The server states reachable from startup through event handling. -/
inductive Reachable : ServerState → Prop
  | init : Reachable initialState
  | next (s : ServerState) (e : Event) : Reachable s → Reachable (step s e)

/-- The updateLatency function of the useMultiplayer hook: pushes the new
sample, evicts the oldest once the window exceeds 10 entries, sorts a copy
ascending and stores the entry at index floor (length / 2) as the smoothed
latency.  Returns the new window and the new smoothed latency. -/
def updateLatency (hist : List ℚ) (newLatency : ℚ) : List ℚ × ℚ :=
  let pushed := hist ++ [newLatency]
  let window := if 10 < pushed.length then pushed.tail else pushed
  let sorted := sortAsc window
  (window, sorted.getD (window.length / 2) 0)

/-- Folding updateLatency over a whole sample sequence from the initial client
state: empty history, smoothed latency 0. -/
def runLatency (samples : List ℚ) : List ℚ × ℚ :=
  samples.foldl (fun st x => updateLatency st.1 x) ([], 0)

/-- The SyncTime record returned by getCurrentSyncTime in the useMultiplayer
hook. -/
structure SyncTime where
  songTime : ℚ
  loopCount : ℤ
  elapsedTime : ℚ
  latency : ℚ
deriving DecidableEq

/-- The actualDurationRef logic of the useMultiplayer hook: the locally
measured audio duration when the caller supplies a positive one, otherwise
the nominal default of 21.0 seconds. -/
def actualDuration (clientAudioDuration : Option ℚ) : ℚ :=
  match clientAudioDuration with
  | some d => if 0 < d then d else 21.0
  | none => 21.0

/-- getCurrentSyncTime from the useMultiplayer hook: elapsed seconds are
(clientNow - serverStartTime + latency) / 1000, position is elapsed modulo the
duration, loop count is Math.floor of elapsed over duration.  All wall-clock
inputs are milliseconds, duration is the client-side duration in seconds. -/
def getCurrentSyncTime (clientNow serverStartTime latency duration : ℚ) : SyncTime :=
  let elapsedTime := (clientNow - serverStartTime + latency) / 1000
  ⟨jsMod elapsedTime duration, ⌊elapsedTime / duration⌋, elapsedTime, latency⟩

/-- Position estimate following the literal wording of the specification,
which divides the latency-compensated elapsed milliseconds by localDuration
instead of by 1000: expected = (localNow - epoch + smoothedLatency) /
localDuration, songTime = expected mod localDuration, loopCount =
floor (expected / localDuration).  Stated only to be compared against
getCurrentSyncTime, the definition taken from the source. -/
def specSyncTime (clientNow serverStartTime latency duration : ℚ) : SyncTime :=
  let expected := (clientNow - serverStartTime + latency) / duration
  ⟨jsMod expected duration, ⌊expected / duration⌋, expected, latency⟩

/-- DRIFT_THRESHOLD from Visualizer.tsx: 150 ms expressed in seconds. -/
def DRIFT_THRESHOLD : ℚ := 0.15

/-- The drift callback registered with setOnDrift in Visualizer.tsx, run on
every heartbeat.  Inputs: the expected song position and the actual playback
position (seconds), the client-side duration (seconds), the wall clock and the
time of the last resync (milliseconds), and the result of getCurrentSyncTime
(none when no sync data has arrived yet).  Output: the playAt request, if
any, and the new last-resync timestamp. -/
def onDrift (expectedTime currentTime duration now lastResync : ℚ)
    (freshSync : Option SyncTime) : Option (ℚ × ℤ) × ℚ :=
  if now - lastResync < 3000 then (none, lastResync)
  else
    let drift := |expectedTime - currentTime|
    let adjustedDrift := min drift (duration - drift)
    if DRIFT_THRESHOLD < adjustedDrift then
      match freshSync with
      | some freshSyncData => (some (freshSyncData.songTime, freshSyncData.loopCount), now)
      | none => (none, lastResync)
    else (none, lastResync)

/-- The playAt function of the useAudioAnalyzer hook, reduced to the offset it
actually starts playback at.  When the player is missing, not loaded, or the
duration is not positive, the code falls back to an unsynced start, modelled
as none; otherwise it starts at the requested offset clamped to
max (0, min (startOffset, duration - 0.01)). -/
def playAt (hasPlayer isLoaded : Bool) (duration startOffset : ℚ) : Option ℚ :=
  if hasPlayer ∧ isLoaded ∧ 0 < duration then
    some (max 0 (min startOffset (duration - 0.01)))
  else none

theorem mapGet_mapSet_self {α : Type} (m : List (String × α)) (k : String) (v : α) :
    mapGet (mapSet m k v) k = some v := by
  induction m with
  | nil => simp [mapGet, mapSet]
  | cons p rest ih =>
      obtain ⟨k', v'⟩ := p
      by_cases h : k' = k
      · simp [mapGet, mapSet, h]
      · simp [mapGet, mapSet, h, ih]

theorem mapGet_mapSet_ne {α : Type} (m : List (String × α)) (k j : String) (v : α)
    (h : j ≠ k) : mapGet (mapSet m k v) j = mapGet m j := by
  have hkj : ¬k = j := fun e => h e.symm
  induction m with
  | nil => simp [mapGet, mapSet, hkj]
  | cons p rest ih =>
      obtain ⟨k', v'⟩ := p
      by_cases hk : k' = k
      · subst hk
        simp [mapGet, mapSet, hkj]
      · simp [mapGet, mapSet, hk, ih]

theorem mapGet_mapDelete_self {α : Type} (m : List (String × α)) (k : String) :
    mapGet (mapDelete m k) k = none := by
  induction m with
  | nil => simp [mapGet, mapDelete]
  | cons p rest ih =>
      obtain ⟨k', v'⟩ := p
      by_cases h : k' = k
      · simpa [mapDelete, List.filter_cons, h] using ih
      · simpa [mapDelete, List.filter_cons, h, mapGet] using ih

theorem mapGet_mapDelete_ne {α : Type} (m : List (String × α)) (k j : String)
    (h : j ≠ k) : mapGet (mapDelete m k) j = mapGet m j := by
  have hkj : ¬k = j := fun e => h e.symm
  induction m with
  | nil => simp [mapGet, mapDelete]
  | cons p rest ih =>
      obtain ⟨k', v'⟩ := p
      by_cases hk : k' = k
      · subst hk
        simpa [mapDelete, List.filter_cons, mapGet, hkj] using ih
      · simp only [mapDelete, List.filter_cons] at ih ⊢
        simp [mapGet, hk, ih]

theorem mapGet_nil {α : Type} (k : String) : mapGet ([] : List (String × α)) k = none :=
  rfl

theorem mapGet_cons {α : Type} (k' : String) (v : α) (rest : List (String × α))
    (k : String) :
    mapGet ((k', v) :: rest) k = if k' = k then some v else mapGet rest k := rfl

theorem konamiActivated_accept (s : ServerState) (userId : String) (now : ℕ)
    (h : ¬now - (mapGet s.lastKonamiActivation userId).getD 0 < 1000) :
    konamiActivated s userId now =
      ({ s with
          lastKonamiActivation := mapSet s.lastKonamiActivation userId now,
          konamiActivations := s.konamiActivations + 1 },
       some (s.konamiActivations + 1)) := by
  simp [konamiActivated, h]

theorem konamiActivated_reject (s : ServerState) (userId : String) (now : ℕ)
    (h : now - (mapGet s.lastKonamiActivation userId).getD 0 < 1000) :
    konamiActivated s userId now = (s, none) := by
  simp [konamiActivated, h]

theorem jsTrunc_of_nonneg {q : ℚ} (h : 0 ≤ q) : jsTrunc q = ⌊q⌋ := if_pos h

theorem jsMod_eq_fract {x d : ℚ} (hx : 0 ≤ x) (hd : 0 < d) :
    jsMod x d = d * Int.fract (x / d) := by
  have hq : 0 ≤ x / d := div_nonneg hx hd.le
  have hd0 : d ≠ 0 := ne_of_gt hd
  simp only [jsMod, jsTrunc, if_pos hq, Int.fract]
  field_simp

theorem jsMod_nonneg {x d : ℚ} (hx : 0 ≤ x) (hd : 0 < d) : 0 ≤ jsMod x d := by
  rw [jsMod_eq_fract hx hd]
  exact mul_nonneg hd.le (Int.fract_nonneg _)

theorem jsMod_lt {x d : ℚ} (hx : 0 ≤ x) (hd : 0 < d) : jsMod x d < d := by
  rw [jsMod_eq_fract hx hd]
  calc d * Int.fract (x / d) < d * 1 := (mul_lt_mul_left hd).2 (Int.fract_lt_one _)
    _ = d := mul_one d

theorem jsMod_add_floor {x d : ℚ} (hx : 0 ≤ x) (hd : 0 < d) :
    x = d * ⌊x / d⌋ + jsMod x d := by
  have hq : 0 ≤ x / d := div_nonneg hx hd.le
  simp only [jsMod, jsTrunc, if_pos hq]
  ring

/-- C1: for every time now with serverStartTime ≤ now, the server clock
position getCurrentSongTime lies in the half-open interval [0, SONG_DURATION),
and together with getLoopCount it decomposes the elapsed time exactly as
elapsed = duration * loopCount + position, i.e. the position is the elapsed
time modulo the duration and the loop count is its integer quotient. -/
theorem clock_position_in_range (now serverStartTime : ℚ)
    (h : serverStartTime ≤ now) :
    0 ≤ getCurrentSongTime now serverStartTime ∧
    getCurrentSongTime now serverStartTime < SONG_DURATION ∧
    getElapsedTime now serverStartTime =
      SONG_DURATION * (getLoopCount now serverStartTime : ℚ) +
        getCurrentSongTime now serverStartTime := by
  have hx : 0 ≤ getElapsedTime now serverStartTime :=
    div_nonneg (sub_nonneg.2 h) (by norm_num)
  have hd : (0 : ℚ) < SONG_DURATION := by norm_num [SONG_DURATION]
  exact ⟨jsMod_nonneg hx hd, jsMod_lt hx hd, jsMod_add_floor hx hd⟩

/-- Witness for C1: a server started at time 0 queried at 25000 ms, the
worked example of the specification, which places the position at 4.0 s into
loop 1. -/
theorem clock_position_in_range_witness :
    (0 : ℚ) ≤ 25000 ∧
    (0 ≤ getCurrentSongTime 25000 0 ∧
     getCurrentSongTime 25000 0 < SONG_DURATION ∧
     getElapsedTime 25000 0 =
       SONG_DURATION * (getLoopCount 25000 0 : ℚ) + getCurrentSongTime 25000 0) :=
  ⟨by norm_num, clock_position_in_range 25000 0 (by norm_num)⟩

/-- Counterexample to C2 as stated: the handler reads a missing debounce entry
as lastActivation = 0, so an activation at wall-clock time 500 ms with no
DebounceEntry present is dropped (500 - 0 < 1000), the counter stays at 0 and
nothing is sent, although the claim says an activation with no DebounceEntry
is always accepted. -/
theorem konami_no_entry_rejected_before_1000 :
    mapGet initialState.lastKonamiActivation "viewer" = none ∧
    konamiActivated initialState "viewer" 500 = (initialState, none) :=
  ⟨rfl, rfl⟩

/-- C2 amended: an activation at time now is accepted if and only if
now - lastActivation ≥ 1000 ms where a missing DebounceEntry counts as
lastActivation = 0 (so a first-ever activation needs now ≥ 1000, which every
real wall clock satisfies); on accept the counter increases by exactly 1, the
entry is set to now, other entries and the registry are untouched and the new
total is sent to the requester; on reject the state is unchanged and nothing
is sent.  For any base time b ≥ 1000: of same-viewer activations at b and
b + 500 exactly the first is accepted, and a third at b + 1500 is accepted. -/
theorem konami_debounce_amended (s : ServerState) (userId : String) (now b : ℕ)
    (hb : 1000 ≤ b) :
    ((konamiActivated s userId now).2 ≠ none ↔
      1000 ≤ now - (mapGet s.lastKonamiActivation userId).getD 0) ∧
    (1000 ≤ now - (mapGet s.lastKonamiActivation userId).getD 0 →
      (konamiActivated s userId now).1.konamiActivations = s.konamiActivations + 1 ∧
      mapGet (konamiActivated s userId now).1.lastKonamiActivation userId = some now ∧
      (∀ j : String, j ≠ userId →
        mapGet (konamiActivated s userId now).1.lastKonamiActivation j =
          mapGet s.lastKonamiActivation j) ∧
      (konamiActivated s userId now).1.users = s.users ∧
      (konamiActivated s userId now).2 = some (s.konamiActivations + 1)) ∧
    (now - (mapGet s.lastKonamiActivation userId).getD 0 < 1000 →
      (konamiActivated s userId now).1 = s ∧ (konamiActivated s userId now).2 = none) ∧
    ((konamiActivated initialState "v" b).2 = some 1 ∧
     (konamiActivated (konamiActivated initialState "v" b).1 "v" (b + 500)).2 = none ∧
     (konamiActivated (konamiActivated (konamiActivated initialState "v" b).1
        "v" (b + 500)).1 "v" (b + 1500)).2 = some 2) := by
  have hfirst : konamiActivated initialState "v" b =
      (⟨[], 1, [("v", b)]⟩, some 1) := by
    rw [konamiActivated_accept _ _ _ (by show ¬b - 0 < 1000; omega)]
    simp [initialState, mapSet]
  have hsecond :
      konamiActivated (⟨[], 1, [("v", b)]⟩ : ServerState) "v" (b + 500) =
        (⟨[], 1, [("v", b)]⟩, none) :=
    konamiActivated_reject _ _ _ (by show b + 500 - b < 1000; omega)
  refine ⟨?_, ?_, ?_, ?_⟩
  · by_cases hc : now - (mapGet s.lastKonamiActivation userId).getD 0 < 1000
    · rw [konamiActivated_reject _ _ _ hc]
      simp
      omega
    · rw [konamiActivated_accept _ _ _ hc]
      simp
      omega
  · intro hacc
    have hc : ¬now - (mapGet s.lastKonamiActivation userId).getD 0 < 1000 := by omega
    rw [konamiActivated_accept _ _ _ hc]
    refine ⟨rfl, mapGet_mapSet_self _ _ _, ?_, rfl, rfl⟩
    intro j hj
    exact mapGet_mapSet_ne _ _ _ _ hj
  · intro hrej
    rw [konamiActivated_reject _ _ _ hrej]
    exact ⟨rfl, rfl⟩
  · refine ⟨by rw [hfirst], by rw [hfirst, hsecond], ?_⟩
    rw [hfirst, hsecond]
    rw [konamiActivated_accept _ _ _ (by show ¬b + 1500 - b < 1000; omega)]

/-- Witness for C2 amended: the three-activation scenario at base time 1000,
extracted from the amended theorem at a concrete state and viewer. -/
theorem konami_debounce_amended_witness :
    (konamiActivated initialState "v" 1000).2 = some 1 ∧
    (konamiActivated (konamiActivated initialState "v" 1000).1 "v" 1500).2 = none ∧
    (konamiActivated (konamiActivated (konamiActivated initialState "v" 1000).1
       "v" 1500).1 "v" 2500).2 = some 2 :=
  (konami_debounce_amended initialState "viewer" 0 1000 (by norm_num)).2.2.2

/-- Counterexample to C3 as stated: with the wall clock starting at 0, viewer
A activating at t = 0 ms and viewer B at t = 100 ms are both rejected, not
both accepted, because a missing DebounceEntry is read as lastActivation = 0
and neither activation satisfies now - 0 ≥ 1000. -/
theorem konami_both_viewers_rejected_at_clock_zero :
    mapGet initialState.lastKonamiActivation "A" = none ∧
    mapGet initialState.lastKonamiActivation "B" = none ∧
    (konamiActivated initialState "A" 0).2 = none ∧
    (konamiActivated (konamiActivated initialState "A" 0).1 "B" 100).2 = none :=
  ⟨rfl, rfl, rfl, rfl⟩

/-- C3 amended: the debounce gate is per-viewer.  The accept/reject outcome
for viewer B depends only on the debounce entry of B (two states agreeing on
that entry give the same outcome), and an activation by a different viewer A
never changes the entry of B.  The concrete scenario holds at any base time
b ≥ 1000: viewer A at b and viewer B at b + 100 are both accepted even though
both fall within one 1000 ms window. -/
theorem konami_gate_per_viewer (s₁ s₂ : ServerState) (a c : String) (now : ℕ)
    (hac : a ≠ c)
    (hsame : mapGet s₁.lastKonamiActivation c = mapGet s₂.lastKonamiActivation c)
    (b : ℕ) (hb : 1000 ≤ b) :
    (konamiActivated s₁ c now).2.isSome = (konamiActivated s₂ c now).2.isSome ∧
    mapGet (konamiActivated s₁ a now).1.lastKonamiActivation c =
      mapGet s₁.lastKonamiActivation c ∧
    ((konamiActivated initialState "A" b).2 = some 1 ∧
     (konamiActivated (konamiActivated initialState "A" b).1 "B" (b + 100)).2 =
       some 2) := by
  have hca : c ≠ a := fun e => hac e.symm
  have hfirst : konamiActivated initialState "A" b =
      (⟨[], 1, [("A", b)]⟩, some 1) := by
    rw [konamiActivated_accept _ _ _ (by show ¬b - 0 < 1000; omega)]
    simp [initialState, mapSet]
  refine ⟨?_, ?_, ?_, ?_⟩
  · by_cases hc : now - (mapGet s₂.lastKonamiActivation c).getD 0 < 1000
    · rw [konamiActivated_reject s₁ c now (by rw [hsame]; exact hc),
        konamiActivated_reject s₂ c now hc]
    · rw [konamiActivated_accept s₁ c now (by rw [hsame]; exact hc),
        konamiActivated_accept s₂ c now hc]
      rfl
  · by_cases hc : now - (mapGet s₁.lastKonamiActivation a).getD 0 < 1000
    · rw [konamiActivated_reject _ _ _ hc]
    · rw [konamiActivated_accept _ _ _ hc]
      exact mapGet_mapSet_ne _ _ _ _ hca
  · rw [hfirst]
  · rw [hfirst]
    rw [konamiActivated_accept _ _ _ (by show ¬b + 100 - 0 < 1000; omega)]

/-- Witness for C3 amended: two distinct viewers with equal (empty) debounce
entries at base time 1000, both activations accepted. -/
theorem konami_gate_per_viewer_witness :
    (konamiActivated initialState "A" 1000).2 = some 1 ∧
    (konamiActivated (konamiActivated initialState "A" 1000).1 "B" 1100).2 =
      some 2 :=
  (konami_gate_per_viewer initialState initialState "A" "B" 0
    (by decide) rfl 1000 (by norm_num)).2.2

/-- Counterexample to C4 as stated: the claimed formula divides the
latency-compensated elapsed milliseconds by localDuration, but the source
divides by 1000 to convert milliseconds to seconds.  At clientNow = 21000 ms,
epoch = 0, latency = 0, duration = 21 s, the code computes songTime = 0
(exactly one full loop elapsed) while the claimed formula yields
1000 mod 21 = 13. -/
theorem syncTime_spec_formula_differs :
    (getCurrentSyncTime 21000 0 0 21).songTime = 0 ∧
    (specSyncTime 21000 0 0 21).songTime = 13 ∧
    (specSyncTime 21000 0 0 21).songTime ≠ (getCurrentSyncTime 21000 0 0 21).songTime := by
  have h1 : (getCurrentSyncTime 21000 0 0 21).songTime = 0 := by
    show jsMod ((21000 - 0 + 0) / 1000) 21 = 0
    rw [jsMod, jsTrunc_of_nonneg (by norm_num)]
    norm_num
  have h2 : (specSyncTime 21000 0 0 21).songTime = 13 := by
    show jsMod ((21000 - 0 + 0) / 21) 21 = 13
    rw [jsMod, jsTrunc_of_nonneg (by norm_num)]
    norm_num
  refine ⟨h1, h2, ?_⟩
  rw [h1, h2]
  norm_num

/-- C4 amended: the client position estimate divides the latency-compensated
elapsed milliseconds by 1000 (not by localDuration): with elapsed =
(localNow - epoch + smoothedLatency) / 1000, the code returns songTime =
elapsed mod localDuration and loopCount = floor (elapsed / localDuration),
so that elapsed = localDuration * loopCount + songTime with songTime in
[0, localDuration); localDuration is the locally measured media duration
whenever a positive one is available, rather than the nominal server
duration. -/
theorem syncTime_amended (clientNow serverStartTime latency duration : ℚ)
    (hd : 0 < duration) (h0 : 0 ≤ clientNow - serverStartTime + latency) :
    (getCurrentSyncTime clientNow serverStartTime latency duration).songTime =
      jsMod ((clientNow - serverStartTime + latency) / 1000) duration ∧
    0 ≤ (getCurrentSyncTime clientNow serverStartTime latency duration).songTime ∧
    (getCurrentSyncTime clientNow serverStartTime latency duration).songTime < duration ∧
    (clientNow - serverStartTime + latency) / 1000 =
      duration * ((getCurrentSyncTime clientNow serverStartTime latency duration).loopCount : ℚ) +
        (getCurrentSyncTime clientNow serverStartTime latency duration).songTime ∧
    (∀ d : ℚ, 0 < d → actualDuration (some d) = d) := by
  have hx : 0 ≤ (clientNow - serverStartTime + latency) / 1000 :=
    div_nonneg h0 (by norm_num)
  exact ⟨rfl, jsMod_nonneg hx hd, jsMod_lt hx hd, jsMod_add_floor hx hd,
    fun d hdpos => if_pos hdpos⟩

/-- Witness for C4 amended: clientNow = 25000 ms, epoch 0, latency 0 and a
locally measured duration of 20.9 s. -/
theorem syncTime_amended_witness :
    ((getCurrentSyncTime 25000 0 0 (209/10)).songTime =
       jsMod ((25000 - 0 + 0) / 1000) (209/10) ∧
     0 ≤ (getCurrentSyncTime 25000 0 0 (209/10)).songTime ∧
     (getCurrentSyncTime 25000 0 0 (209/10)).songTime < 209/10 ∧
     (25000 - 0 + 0 : ℚ) / 1000 =
       (209/10) * ((getCurrentSyncTime 25000 0 0 (209/10)).loopCount : ℚ) +
         (getCurrentSyncTime 25000 0 0 (209/10)).songTime) ∧
    actualDuration (some (209/10)) = 209/10 := by
  have h := syncTime_amended 25000 0 0 (209/10) (by norm_num) (by norm_num)
  exact ⟨⟨h.1, h.2.1, h.2.2.1, h.2.2.2.1⟩, h.2.2.2.2 (209/10) (by norm_num)⟩

/-- C5: with drift = the absolute difference between expected and actual
position and adjustedDrift = min (drift, duration - drift), the drift
callback issues a resync, restarting playback at the freshly reported
position and loop count, exactly when adjustedDrift exceeds DRIFT_THRESHOLD
(0.15 s) and at least 3000 ms have passed since the last correction; the
last-correction timestamp advances exactly on resync.  In the wraparound
case actual = 20.9 s, expected = 0.2 s, duration = 21 s the adjusted drift
is 0.3 s and a resync is triggered. -/
theorem drift_resync_policy (expectedTime currentTime duration now lastResync : ℚ)
    (freshSyncData : SyncTime) :
    ((onDrift expectedTime currentTime duration now lastResync (some freshSyncData)).1 =
        some (freshSyncData.songTime, freshSyncData.loopCount) ↔
      3000 ≤ now - lastResync ∧
        DRIFT_THRESHOLD <
          min |expectedTime - currentTime| (duration - |expectedTime - currentTime|)) ∧
    ((onDrift expectedTime currentTime duration now lastResync (some freshSyncData)).1 = none →
      (onDrift expectedTime currentTime duration now lastResync (some freshSyncData)).2 =
        lastResync) ∧
    ((onDrift expectedTime currentTime duration now lastResync (some freshSyncData)).1 ≠ none →
      (onDrift expectedTime currentTime duration now lastResync (some freshSyncData)).2 = now) ∧
    (min |(0.2 : ℚ) - 20.9| (21 - |(0.2 : ℚ) - 20.9|) = 0.3 ∧
     (onDrift 0.2 20.9 21 5000 0 (some freshSyncData)).1 =
       some (freshSyncData.songTime, freshSyncData.loopCount)) := by
  have habs : |(0.2 : ℚ) - 20.9| = 20.7 := by
    rw [abs_of_nonpos (by norm_num)]
    norm_num
  have hmin : min |(0.2 : ℚ) - 20.9| (21 - |(0.2 : ℚ) - 20.9|) = 0.3 := by
    rw [habs, show (21 : ℚ) - 20.7 = 0.3 by norm_num]
    exact min_eq_right (by norm_num)
  have hmain :
      ∀ e c d n l : ℚ,
        ((onDrift e c d n l (some freshSyncData)).1 =
            some (freshSyncData.songTime, freshSyncData.loopCount) ↔
          3000 ≤ n - l ∧ DRIFT_THRESHOLD < min |e - c| (d - |e - c|)) ∧
        ((onDrift e c d n l (some freshSyncData)).1 = none →
          (onDrift e c d n l (some freshSyncData)).2 = l) ∧
        ((onDrift e c d n l (some freshSyncData)).1 ≠ none →
          (onDrift e c d n l (some freshSyncData)).2 = n) := by
    intro e c d n l
    by_cases h1 : n - l < 3000
    · have hno : ¬3000 ≤ n - l := by linarith
      simp [onDrift, h1, hno]
    · by_cases h2 : DRIFT_THRESHOLD < min |e - c| (d - |e - c|)
      · simp [onDrift, h1, h2]
        linarith
      · simp [onDrift, h1, h2]
  refine ⟨(hmain _ _ _ _ _).1, (hmain _ _ _ _ _).2.1, (hmain _ _ _ _ _).2.2, hmin, ?_⟩
  exact ((hmain 0.2 20.9 21 5000 0).1).2
    ⟨by norm_num, by rw [hmin]; norm_num [DRIFT_THRESHOLD]⟩

/-- Witness for C5: expected 0.2 s, actual 20.9 s, duration 21 s, wall clock
5000 ms, last correction at 0 ms, a concrete fresh sync record. -/
theorem drift_resync_policy_witness :
    (onDrift 0.2 20.9 21 5000 0 (some (⟨0.2, 1, 21.2, 50⟩ : SyncTime))).1 =
      some ((0.2 : ℚ), (1 : ℤ)) :=
  (drift_resync_policy 0.2 20.9 21 5000 0 ⟨0.2, 1, 21.2, 50⟩).2.2.2.2

theorem takeLast_length {α : Type} (n : ℕ) (l : List α) :
    (takeLast n l).length = min l.length n := by
  simp only [takeLast, List.length_drop]
  omega

theorem window_step (p : List ℚ) (x : ℚ) :
    (if 10 < (takeLast 10 p ++ [x]).length then (takeLast 10 p ++ [x]).tail
     else takeLast 10 p ++ [x]) = takeLast 10 (p ++ [x]) := by
  by_cases hp : p.length < 10
  · have h1 : takeLast 10 p = p := by
      unfold takeLast
      rw [show p.length - 10 = 0 by omega, List.drop_zero]
    have h2 : takeLast 10 (p ++ [x]) = p ++ [x] := by
      unfold takeLast
      rw [show (p ++ [x]).length - 10 = 0 by simp; omega, List.drop_zero]
    have hlen : ¬10 < (p ++ [x]).length := by simp; omega
    rw [h1, h2, if_neg hlen]
  · have hlen10 : (takeLast 10 p).length = 10 := by rw [takeLast_length]; omega
    have hgt : 10 < (takeLast 10 p ++ [x]).length := by simp [hlen10]
    rw [if_pos hgt]
    have hne : takeLast 10 p ≠ [] := by
      intro h
      rw [h] at hlen10
      simp at hlen10
    rw [List.tail_append_singleton_of_ne_nil hne]
    have ht : (takeLast 10 p).tail = p.drop (p.length - 10 + 1) :=
      List.tail_drop p (p.length - 10)
    have hd : takeLast 10 (p ++ [x]) = p.drop (p.length + 1 - 10) ++ [x] := by
      simp only [takeLast, List.length_append, List.length_singleton]
      rw [List.drop_append_of_le_length (by omega)]
    rw [ht, hd, show p.length - 10 + 1 = p.length + 1 - 10 by omega]

theorem updateLatency_takeLast (p : List ℚ) (x : ℚ) :
    updateLatency (takeLast 10 p) x =
      (takeLast 10 (p ++ [x]), medianOf (takeLast 10 (p ++ [x]))) := by
  simp only [updateLatency, medianOf]
  rw [window_step p x]

theorem foldl_updateLatency (rest : List ℚ) (p : List ℚ) (m : ℚ)
    (hm : m = medianOf (takeLast 10 p)) :
    List.foldl (fun st x => updateLatency st.1 x) (takeLast 10 p, m) rest =
      (takeLast 10 (p ++ rest), medianOf (takeLast 10 (p ++ rest))) := by
  induction rest generalizing p m with
  | nil => simp [hm]
  | cons y ys ih =>
      simp only [List.foldl_cons]
      rw [updateLatency_takeLast, ih (p ++ [y]) _ rfl]
      simp

theorem runLatency_invariant (samples : List ℚ) :
    runLatency samples = (takeLast 10 samples, medianOf (takeLast 10 samples)) := by
  have h := foldl_updateLatency samples [] 0 rfl
  simpa [runLatency, takeLast] using h

/-- C6: for every sample sequence, the latency window kept by updateLatency
is exactly the suffix of the last at most 10 samples (bounded, oldest evicted
first) and the smoothed estimate is the median of that window, the entry at
index floor (length / 2) of the ascending sort; concretely, nine samples of
50 ms with a single 5000 ms outlier leave the smoothed estimate at 50 ms,
well below 60 ms. -/
theorem latency_median_window (samples : List ℚ) :
    (runLatency samples).1 = takeLast 10 samples ∧
    (runLatency samples).1.length = min samples.length 10 ∧
    (runLatency samples).2 = medianOf (runLatency samples).1 ∧
    (runLatency [50, 50, 50, 50, 5000, 50, 50, 50, 50, 50]).2 = 50 ∧
    (runLatency [50, 50, 50, 50, 5000, 50, 50, 50, 50, 50]).2 ≤ 60 := by
  have h := runLatency_invariant samples
  have hconc : (runLatency [50, 50, 50, 50, 5000, 50, 50, 50, 50, 50]).2 = 50 := by
    decide
  refine ⟨by rw [h], ?_, by rw [h], hconc, by rw [hconc]; norm_num⟩
  rw [h]
  exact takeLast_length 10 samples

theorem mapSet_of_not_mem {α : Type} (m : List (String × α)) (k : String) (v : α)
    (h : mapGet m k = none) : mapSet m k v = m ++ [(k, v)] := by
  induction m with
  | nil => rfl
  | cons p rest ih =>
      obtain ⟨k', v'⟩ := p
      rw [mapGet_cons] at h
      by_cases hk : k' = k
      · simp [hk] at h
      · rw [if_neg hk] at h
        simp [mapSet, hk, ih h]

theorem mapGet_isSome_iff_mem_keys {α : Type} (m : List (String × α)) (k : String) :
    (mapGet m k).isSome ↔ k ∈ m.map Prod.fst := by
  induction m with
  | nil => simp [mapGet_nil]
  | cons p rest ih =>
      obtain ⟨k', v'⟩ := p
      by_cases hk : k' = k
      · subst hk
        simp [mapGet_cons]
      · simp [mapGet_cons, hk, ih, Ne.symm hk]

/-- Counterexample to C7 as stated: join never fails and does silently
replace.  With a session for id a (color red) already in the registry, the
connection handler for a second join under the same id succeeds and
overwrites the stored session, whose color becomes blue: the Map.set call
has no failure path. -/
theorem join_silently_replaces :
    (mapGet ((⟨[("a", ⟨"a", "red", 0, 0⟩)], 0, []⟩ : ServerState).users) "a").map
        Session.color = some "red" ∧
    (mapGet (handleConnection ⟨[("a", ⟨"a", "red", 0, 0⟩)], 0, []⟩ "a" "blue").1.users
        "a").map Session.color = some "blue" :=
  ⟨rfl, rfl⟩

/-- C7 amended: join(id, color) always succeeds, creating a Session whose
pointer defaults to the center (0.5, 0.5); when the id is not yet present it
is appended as a fresh entry, when it is present the existing Session is
silently replaced (unreachable in practice, as the transport assigns unique
socket ids); other entries and the remaining server state are untouched. -/
theorem join_amended (s : ServerState) (userId userColor : String) :
    (handleConnection s userId userColor).2 = ⟨userId, userColor, 0.5, 0.5⟩ ∧
    mapGet (handleConnection s userId userColor).1.users userId =
      some ⟨userId, userColor, 0.5, 0.5⟩ ∧
    (mapGet s.users userId = none →
      (handleConnection s userId userColor).1.users =
        s.users ++ [(userId, ⟨userId, userColor, 0.5, 0.5⟩)]) ∧
    (∀ j : String, j ≠ userId →
      mapGet (handleConnection s userId userColor).1.users j = mapGet s.users j) ∧
    (handleConnection s userId userColor).1.konamiActivations = s.konamiActivations ∧
    (handleConnection s userId userColor).1.lastKonamiActivation =
      s.lastKonamiActivation :=
  ⟨rfl, mapGet_mapSet_self _ _ _,
   fun h => mapSet_of_not_mem _ _ _ h,
   fun _ hj => mapGet_mapSet_ne _ _ _ _ hj, rfl, rfl⟩

/-- Witness for C7 amended: joining an empty registry appends the fresh
session, and an unrelated id stays absent. -/
theorem join_amended_witness :
    (handleConnection initialState "a" "red").2 = ⟨"a", "red", 0.5, 0.5⟩ ∧
    (handleConnection initialState "a" "red").1.users =
      [("a", ⟨"a", "red", 0.5, 0.5⟩)] ∧
    mapGet (handleConnection initialState "a" "red").1.users "b" = none := by
  have h := join_amended initialState "a" "red"
  refine ⟨h.1, ?_, ?_⟩
  · have h2 := h.2.2.1 rfl
    simpa [initialState] using h2
  · rw [h.2.2.2.1 "b" (by decide)]
    rfl

/-- C8: the cursorMove handler with an id absent from the registry is a
non-fatal no-op, leaving the whole state unchanged and emitting nothing;
with a present id it overwrites only the pointer of that Session (id and
color preserved, every other entry untouched, counter and debounce map
untouched) and broadcasts the update to exactly the connected ids other
than the sender. -/
theorem cursorMove_handler (s : ServerState) (userId : String) (x y : ℚ) :
    (mapGet s.users userId = none → cursorMove s userId x y = (s, none)) ∧
    (∀ u : Session, mapGet s.users userId = some u →
      (cursorMove s userId x y).2 =
        some ⟨userId, x, y, (s.users.map Prod.fst).filter (fun j => !(j == userId))⟩ ∧
      mapGet (cursorMove s userId x y).1.users userId = some ⟨u.id, u.color, x, y⟩ ∧
      (∀ j : String, j ≠ userId →
        mapGet (cursorMove s userId x y).1.users j = mapGet s.users j) ∧
      (∀ j : String,
        j ∈ (s.users.map Prod.fst).filter (fun r => !(r == userId)) ↔
          ((mapGet s.users j).isSome ∧ j ≠ userId)) ∧
      (cursorMove s userId x y).1.konamiActivations = s.konamiActivations ∧
      (cursorMove s userId x y).1.lastKonamiActivation = s.lastKonamiActivation) := by
  constructor
  · intro h
    simp [cursorMove, h]
  · intro u hu
    refine ⟨by simp [cursorMove, hu], ?_, ?_, ?_, by simp [cursorMove, hu],
      by simp [cursorMove, hu]⟩
    · simp [cursorMove, hu, mapGet_mapSet_self]
    · intro j hj
      simp [cursorMove, hu, mapGet_mapSet_ne _ _ _ _ hj]
    · intro j
      simp [List.mem_filter, mapGet_isSome_iff_mem_keys, and_comm]

/-- Witness for C8: a registry holding sessions a and b; a moves its pointer
to (1, 0); only the entry of a changes and only b receives the broadcast. -/
theorem cursorMove_handler_witness :
    (cursorMove ⟨[("a", ⟨"a", "red", 0, 0⟩), ("b", ⟨"b", "cyan", 0, 0⟩)], 0, []⟩
        "a" 1 0).2 = some ⟨"a", 1, 0, ["b"]⟩ ∧
    mapGet (cursorMove ⟨[("a", ⟨"a", "red", 0, 0⟩), ("b", ⟨"b", "cyan", 0, 0⟩)], 0, []⟩
        "a" 1 0).1.users "a" = some ⟨"a", "red", 1, 0⟩ := by
  have h := (cursorMove_handler
    ⟨[("a", ⟨"a", "red", 0, 0⟩), ("b", ⟨"b", "cyan", 0, 0⟩)], 0, []⟩ "a" 1 0).2
    ⟨"a", "red", 0, 0⟩ rfl
  exact ⟨by rw [h.1]; rfl, h.2.1⟩

/-- Counterexample to C9 as stated: a reachable state in which a viewer has
disconnected, is gone from the session registry, yet still owns a
DebounceEntry — the disconnect handler deletes only from the users Map and
never touches the debounce map.  Trace: connect a, accepted activation by a
at 2000 ms, disconnect a. -/
theorem debounce_entry_survives_disconnect :
    Reachable (step (step (step initialState (.connect "a" "red"))
      (.konami "a" 2000)) (.disconnect "a")) ∧
    mapGet (step (step (step initialState (.connect "a" "red"))
      (.konami "a" 2000)) (.disconnect "a")).users "a" = none ∧
    mapGet (step (step (step initialState (.connect "a" "red"))
      (.konami "a" 2000)) (.disconnect "a")).lastKonamiActivation "a" = some 2000 :=
  ⟨Reachable.next _ _ (Reachable.next _ _ (Reachable.next _ _ Reachable.init)),
   rfl, rfl⟩

/-- C9 amended: disconnecting a session synchronously removes the viewer from
the session registry, leaving every other registry entry intact, but the
debounce map is left entirely unchanged, so a DebounceEntry can survive its
session (the specification itself records this as the reference behavior and
a latent memory leak). -/
theorem disconnect_amended (s : ServerState) (userId : String) :
    mapGet (handleDisconnect s userId).users userId = none ∧
    (∀ j : String, j ≠ userId →
      mapGet (handleDisconnect s userId).users j = mapGet s.users j) ∧
    (handleDisconnect s userId).lastKonamiActivation = s.lastKonamiActivation ∧
    (handleDisconnect s userId).konamiActivations = s.konamiActivations :=
  ⟨mapGet_mapDelete_self _ _, fun _ hj => mapGet_mapDelete_ne _ _ _ hj, rfl, rfl⟩

/-- Witness for C9 amended: a two-session registry with a debounce entry for
a; after a disconnects, b is untouched and the debounce entry remains. -/
theorem disconnect_amended_witness :
    mapGet (handleDisconnect ⟨[("a", ⟨"a", "red", 0, 0⟩),
      ("b", ⟨"b", "cyan", 0, 0⟩)], 3, [("a", 2000)]⟩ "a").users "a" = none ∧
    mapGet (handleDisconnect ⟨[("a", ⟨"a", "red", 0, 0⟩),
      ("b", ⟨"b", "cyan", 0, 0⟩)], 3, [("a", 2000)]⟩ "a").users "b" =
      some ⟨"b", "cyan", 0, 0⟩ ∧
    (handleDisconnect ⟨[("a", ⟨"a", "red", 0, 0⟩),
      ("b", ⟨"b", "cyan", 0, 0⟩)], 3, [("a", 2000)]⟩ "a").lastKonamiActivation =
      [("a", 2000)] := by
  have h := disconnect_amended ⟨[("a", ⟨"a", "red", 0, 0⟩),
    ("b", ⟨"b", "cyan", 0, 0⟩)], 3, [("a", 2000)]⟩ "a"
  refine ⟨h.1, ?_, h.2.2.1⟩
  rw [h.2.1 "b" (by decide)]
  rfl

/-- C10: when the player is loaded and duration > 0, playAt starts playback
at the requested offset clamped to max (0, min (startOffset, duration -
0.01)), which lies in [0, duration) for every requested startOffset,
including negative and past-the-end values. -/
theorem playAt_clamps (duration : ℚ) (hd : 0 < duration) (startOffset : ℚ) :
    playAt true true duration startOffset =
      some (max 0 (min startOffset (duration - 0.01))) ∧
    0 ≤ max 0 (min startOffset (duration - 0.01)) ∧
    max 0 (min startOffset (duration - 0.01)) < duration := by
  refine ⟨by simp [playAt, hd], le_max_left _ _, ?_⟩
  exact max_lt hd
    ((min_le_right _ _).trans_lt (by linarith [show (0 : ℚ) < 0.01 by norm_num]))

/-- Witness for C10: a 21 s loop with a negative requested offset of -5 s,
clamped to 0. -/
theorem playAt_clamps_witness :
    playAt true true 21 (-5) = some (max 0 (min (-5) (21 - 0.01))) ∧
    0 ≤ max 0 (min (-5 : ℚ) (21 - 0.01)) ∧
    max 0 (min (-5 : ℚ) (21 - 0.01)) < 21 :=
  playAt_clamps 21 (by norm_num) (-5)
